import Mathlib

/-!
Verification of the image-editor repository (GUI in 3_main.py) against its
specification.  The GUI layer consumes an `ImageModel` (edit history with
undo/redo and an adjustment pipeline) whose implementation file
(1_image_processing.py) is not part of the provided sources; those parts are
modelled from the specification, as marked on each definition.  The widget
wiring (make_slider, on_drag_wrapper, reset_action, load_menu_icons) is
embedded directly from 3_main.py.
-/

/-- Modelled from the spec: the status signals surfaced to the user by the
Image Model operations (spec sections 4.1 and 7: NoImageLoaded, HistoryEmpty
split into the "nothing to undo" / "nothing to redo" messages, plus the
ordinary success outcome). -/
inductive Signal where
  | ok
  | noImageLoaded
  | nothingToUndo
  | nothingToRedo
deriving DecidableEq, Repr

/-- Modelled from the spec (section 3, Data Model): an Edit Record is an
immutable snapshot of the image buffer before a committed operation, paired
with a human-readable operation label.  The buffer type `B` is abstract:
pixel-level content is explicitly out of the spec's scope. -/
structure EditRecord (B : Type) where
  label : String
  buffer : B
deriving DecidableEq, Repr

/-- Modelled from the spec (sections 3 and 4.1): the Edit History of a loaded
image. `current` is the live buffer, `undoStack` and `redoStack` hold Edit
Records most-recent-first, and `maxDepth` is the configurable maximum depth
of the undo stack.  The implementation file 1_image_processing.py
(ImageModel) is not in the provided sources. -/
structure History (B : Type) where
  current : B
  undoStack : List (EditRecord B)
  redoStack : List (EditRecord B)
  maxDepth : Nat
deriving DecidableEq, Repr

namespace History

/-- Modelled from the spec (section 3, Lifecycle): loading an image creates
the buffer and an empty history. -/
def load {B : Type} (b : B) (depth : Nat) : History B :=
  { current := b, undoStack := [], redoStack := [], maxDepth := depth }

/-- Modelled from the spec (section 4.1): `commit(label, resulting_buffer)`
pushes the current (pre-edit) buffer onto the undo stack tagged with `label`,
sets the current buffer to the resulting buffer, and clears the redo stack.
If the undo-stack depth exceeds the configured maximum, the oldest entry
(FIFO at the bottom) is evicted.  No error conditions; always succeeds. -/
def commit {B : Type} (l : String) (newBuf : B) (h : History B) : History B :=
  let pushed := ⟨l, h.current⟩ :: h.undoStack
  { current := newBuf
    undoStack := if h.maxDepth < pushed.length then pushed.dropLast else pushed
    redoStack := []
    maxDepth := h.maxDepth }

/-- Modelled from the spec (section 4.1): `undo()` is a no-op signalling
"nothing to undo" on an empty undo stack; otherwise it pops the most recent
Edit Record, pushes the current buffer onto the redo stack, and sets the
current buffer to the popped record's buffer. -/
def undo {B : Type} (h : History B) : History B × Signal :=
  match h.undoStack with
  | [] => (h, .nothingToUndo)
  | r :: rest =>
      ({ current := r.buffer
         undoStack := rest
         redoStack := ⟨r.label, h.current⟩ :: h.redoStack
         maxDepth := h.maxDepth }, .ok)

/-- Modelled from the spec (section 4.1): `redo()` is symmetric to `undo`,
popping from the redo stack and pushing the current state onto the undo
stack; no-op with a "nothing to redo" signal if the redo stack is empty. -/
def redo {B : Type} (h : History B) : History B × Signal :=
  match h.redoStack with
  | [] => (h, .nothingToRedo)
  | r :: rest =>
      ({ current := r.buffer
         undoStack := ⟨r.label, h.current⟩ :: h.undoStack
         redoStack := rest
         maxDepth := h.maxDepth }, .ok)

/-- An arbitrary history operation, used to quantify over operation
sequences. -/
inductive Op (B : Type) where
  | commit (l : String) (b : B)
  | undo
  | redo
deriving DecidableEq, Repr

/-- Apply one operation, discarding the signal. -/
def applyOp {B : Type} (h : History B) : Op B → History B
  | .commit l b => h.commit l b
  | .undo => h.undo.1
  | .redo => h.redo.1

/-- Apply a sequence of operations left to right. -/
def applyAll {B : Type} (ops : List (Op B)) (h : History B) : History B :=
  ops.foldl applyOp h

/-- Apply a list of commits (label, buffer) left to right. -/
def commitAll {B : Type} (cs : List (String × B)) (h : History B) : History B :=
  cs.foldl (fun h c => h.commit c.1 c.2) h

/-- Apply `n` undos in sequence, discarding signals. -/
def undoN {B : Type} : Nat → History B → History B
  | 0, h => h
  | n + 1, h => undoN n h.undo.1

end History

/-- Modelled from the spec (section 3): the adjustment names driven by
sliders ("Brightness", "Blur", etc.; a third continuous adjustment stands in
for the "etc.").  The adjustment set of ImageModel (1_image_processing.py)
is not in the provided sources. -/
inductive AdjName where
  | brightness
  | blur
  | contrast
deriving DecidableEq, Repr

/-- Modelled from the spec (section 3): each adjustment has a declared valid
range [lo, hi] and a default.  The concrete numbers are not given by the
spec, so ranges are data. -/
structure AdjRange where
  lo : ℚ
  hi : ℚ
  dflt : ℚ
deriving DecidableEq, Repr

/-- Modelled from the spec (section 4.2): a parameter value is clamped to its
declared range before use. -/
def clampTo (r : AdjRange) (v : ℚ) : ℚ :=
  max r.lo (min r.hi v)

/-- Modelled from the spec (section 3): the Adjustment Parameter Set, a
mapping from adjustment name to its current numeric value. -/
structure AdjParams where
  brightness : ℚ
  blur : ℚ
  contrast : ℚ
deriving DecidableEq, Repr

/-- Modelled from the spec (section 3): the parameter set holding every
adjustment's default value. -/
def AdjParams.defaults (ranges : AdjName → AdjRange) : AdjParams :=
  { brightness := (ranges .brightness).dflt
    blur := (ranges .blur).dflt
    contrast := (ranges .contrast).dflt }

/-- Modelled from the spec (sections 4.2 and 6): `set_adjustment(name, value)`
records the value for one adjustment, clamped to its declared range. -/
def AdjParams.set (ranges : AdjName → AdjRange) (p : AdjParams)
    (n : AdjName) (v : ℚ) : AdjParams :=
  match n with
  | .brightness => { p with brightness := clampTo (ranges .brightness) v }
  | .blur => { p with blur := clampTo (ranges .blur) v }
  | .contrast => { p with contrast := clampTo (ranges .contrast) v }

/-- Modelled from the spec (section 4.2, ordering policy): the pipeline
applies the adjustments to the base buffer in a fixed, declared order
(brightness, then blur, then contrast), not the order the user touched the
sliders.  Each adjustment's effect is a pure function of the buffer and the
parameter value; the pixel-level functions are out of the spec's scope and
are therefore parameters. -/
def renderPipeline {B : Type} (fBright fBlur fContrast : ℚ → B → B)
    (base : B) (p : AdjParams) : B :=
  fContrast p.contrast (fBlur p.blur (fBright p.brightness base))

/-- Modelled from the spec (sections 2 and 4.2): the loaded state of the
Image Model keeps the pristine base buffer set at load time alongside the
edit history. -/
structure LoadedImage (B : Type) where
  base : B
  hist : History B
deriving DecidableEq, Repr

/-- Modelled from the spec (sections 2, 3 and 4): the Image Model.  `loaded`
is `none` while no image is loaded; `params` is the Adjustment Parameter
Set. -/
structure Model (B : Type) where
  loaded : Option (LoadedImage B)
  params : AdjParams
deriving DecidableEq, Repr

namespace Model

/-- Modelled from the spec (section 4.2): a discrete effect (grayscale,
edge-detect) is applied once to the current buffer and immediately committed
to history as an atomic Edit Record; with no image loaded it signals "no
image loaded" and performs no mutation. -/
def applyEffect {B : Type} (eff : B → B) (l : String) (m : Model B) :
    Model B × Signal :=
  match m.loaded with
  | none => (m, .noImageLoaded)
  | some li =>
      ({ m with loaded := some { li with hist := li.hist.commit l (eff li.hist.current) } }, .ok)

/-- Modelled from the spec (sections 4.2 and 6): `set_adjustment` updates the
parameter set (preview, no history entry); with no image loaded it signals
"no image loaded" and performs no mutation. -/
def setAdjustment {B : Type} (ranges : AdjName → AdjRange) (n : AdjName)
    (v : ℚ) (m : Model B) : Model B × Signal :=
  match m.loaded with
  | none => (m, .noImageLoaded)
  | some _ => ({ m with params := m.params.set ranges n v }, .ok)

/-- Modelled from the spec (sections 4.1 and 4.2): `undo()` on the model;
with no image loaded it signals "no image loaded" and performs no
mutation. -/
def undo {B : Type} (m : Model B) : Model B × Signal :=
  match m.loaded with
  | none => (m, .noImageLoaded)
  | some li =>
      let r := li.hist.undo
      ({ m with loaded := some { li with hist := r.1 } }, r.2)

/-- Modelled from the spec (sections 4.1 and 4.2): `redo()` on the model;
with no image loaded it signals "no image loaded" and performs no
mutation. -/
def redo {B : Type} (m : Model B) : Model B × Signal :=
  match m.loaded with
  | none => (m, .noImageLoaded)
  | some li =>
      let r := li.hist.redo
      ({ m with loaded := some { li with hist := r.1 } }, r.2)

end Model

/-!
Embeddings from src/3_main.py.  Python float values that flow through the
slider callbacks are modelled as rationals.
-/

/-- Python `int(val)` on a numeric value: truncation toward zero. -/
def pyInt (q : ℚ) : Int :=
  if 0 ≤ q then ⌊q⌋ else ⌈q⌉

/-- Round a rational to the nearest integer, ties to the even neighbour, as
Python float formatting does. -/
def roundHalfEven (q : ℚ) : Int :=
  let f := ⌊q⌋
  let r := q - (f : ℚ)
  if r < 1 / 2 then f
  else if 1 / 2 < r then f + 1
  else if f % 2 = 0 then f else f + 1

/-- Render a natural number below 100 with exactly two digits. -/
def twoDigitStr (n : Nat) : String :=
  (if n < 10 then "0" else "") ++ toString n

/-- Python `f"{val:.2f}"`: the value rounded to two decimal places and
rendered with exactly two digits after the point. -/
def pyFormat2 (q : ℚ) : String :=
  let n := roundHalfEven (100 * q)
  (if n < 0 then "-" else "") ++
    toString (n.natAbs / 100) ++ "." ++ twoDigitStr (n.natAbs % 100)

/-- From src/3_main.py, on_drag_wrapper (lines 199-204): the displayed value
is `int(val)` for the "Blur" and "Brightness" sliders and `f"{val:.2f}"` for
every other slider. -/
def displayValue (name : String) (val : ℚ) : String :=
  if name = "Blur" ∨ name = "Brightness" then toString (pyInt val)
  else pyFormat2 val

/-- From src/3_main.py, on_drag_wrapper (line 207): the label text written on
drag. -/
def dragLabelText (name : String) (val : ℚ) : String :=
  name ++ ": " ++ displayValue name val

/-- Observable state of one slider built by make_slider (src/3_main.py,
lines 186-250): the slider's value, its label's text, and logs of the calls
made to the `cmd_drag` and `cmd_rel` callbacks.  A `cmd_rel` argument is
`some e` for a Tk event object (events are identified by a number) and `none`
for Python's `None`. -/
structure SliderState where
  value : ℚ
  labelText : String
  dragCalls : List ℚ
  relCalls : List (Option Nat)
deriving DecidableEq, Repr

/-- From src/3_main.py, make_slider (lines 193-194): the label's initial text
is built from the default value with plain str formatting; the slider starts
at the default value (line 244) and no callback has run. -/
def SliderState.init (name : String) (defaultStr : String) (defaultVal : ℚ) :
    SliderState :=
  { value := defaultVal
    labelText := name ++ ": " ++ defaultStr
    dragCalls := []
    relCalls := [] }

/-- From src/3_main.py, on_drag_wrapper (lines 199-210): format the value,
update the label, then call the drag callback with the raw value. -/
def onDragWrapper (name : String) (val : ℚ) (s : SliderState) : SliderState :=
  { s with
    labelText := dragLabelText name val
    dragCalls := s.dragCalls ++ [val] }

/-- From src/3_main.py, reset_action (lines 213-221): set the slider to the
default value, run on_drag_wrapper on the default value, then call the
release callback with `None`. -/
def resetAction (name : String) (defaultVal : ℚ) (s : SliderState) :
    SliderState :=
  let s1 := { s with value := defaultVal }
  let s2 := onDragWrapper name defaultVal s1
  { s2 with relCalls := s2.relCalls ++ [none] }

/-- From src/3_main.py, line 248 (`slider.configure(command=on_drag_wrapper)`):
a drag tick moves the slider to `val` and runs on_drag_wrapper on it. -/
def dragTo (name : String) (val : ℚ) (s : SliderState) : SliderState :=
  onDragWrapper name val { s with value := val }

/-- From src/3_main.py, line 249 (`slider.bind("<ButtonRelease-1>", cmd_rel)`):
releasing the mouse calls the release callback with the event object; the
reset path instead passes `none`. -/
def releaseWith (e : Option Nat) (s : SliderState) : SliderState :=
  { s with relCalls := s.relCalls ++ [e] }

/-!
Embedding of load_menu_icons (src/3_main.py, lines 70-109).  The PIL calls
the method makes are external library operations, modelled as a free term
algebra; the filesystem is a predicate on paths and the mode of an opened
file is supplied by a function, since both are environment inputs.
-/

/-- A PIL image as constructed by load_menu_icons: each constructor is one of
the PIL operations the method applies. -/
inductive PILImg where
  /-- Image.open(path) -/
  | file (path : String)
  /-- Image.new(mode, (w, h), rgba colour) -/
  | blank (mode : String) (w h : Nat) (r g b a : Nat)
  /-- ImageDraw rectangle([x0, y0, x1, y1], fill) drawn on the base image -/
  | rect (base : PILImg) (x0 y0 x1 y1 : Nat) (fill : String)
  /-- img.resize((w, h), LANCZOS) -/
  | resize (base : PILImg) (w h : Nat)
  /-- img.convert(mode) -/
  | convert (base : PILImg) (mode : String)
  /-- the split / white-background / merge step of lines 100-106 -/
  | mergeWhiteAlpha (base : PILImg)
deriving DecidableEq, Repr

/-- The mode of a PIL image; the mode of a file on disk is given by the
environment function `modeOf`. -/
def PILImg.modeIn (modeOf : String → String) : PILImg → String
  | .file p => modeOf p
  | .blank m _ _ _ _ _ _ => m
  | .rect base _ _ _ _ _ => base.modeIn modeOf
  | .resize base _ _ => base.modeIn modeOf
  | .convert _ m => m
  | .mergeWhiteAlpha _ => "RGBA"

/-- From src/3_main.py, line 73: the icon names load_menu_icons loads. -/
def iconNames : List String :=
  ["open", "save", "save_as", "undo", "redo", "close"]

/-- From src/3_main.py, line 81: os.path.join(icon_path, f"{name}.png"). -/
def iconFilePath (iconDir name : String) : String :=
  iconDir ++ "/" ++ name ++ ".png"

/-- From src/3_main.py, lines 87-90: the blank white rectangle placeholder
built when the icon file does not exist. -/
def placeholderIcon : PILImg :=
  PILImg.rect (PILImg.blank "RGBA" 20 20 0 0 0 0) 2 2 18 18 "white"

/-- From src/3_main.py, lines 80-109 (loop body): load the file if it exists,
else build the placeholder; resize to 18x18; convert to RGBA unless already
RGBA; recombine with a white background keeping the alpha channel. -/
def processIcon (fsExists : String → Bool) (modeOf : String → String)
    (iconDir name : String) : PILImg :=
  let path := iconFilePath iconDir name
  let img := if fsExists path then PILImg.file path else placeholderIcon
  let img := img.resize 18 18
  let img := if img.modeIn modeOf ≠ "RGBA" then img.convert "RGBA" else img
  PILImg.mergeWhiteAlpha img

/-- From src/3_main.py, lines 70-109: the menu_icons dictionary built by
load_menu_icons, as an association list keyed by icon name. -/
def loadMenuIcons (fsExists : String → Bool) (modeOf : String → String)
    (iconDir : String) : List (String × PILImg) :=
  iconNames.map (fun name => (name, processIcon fsExists modeOf iconDir name))

/-!
Claim theorems.
-/

/-- C2: for every history state, committing a new edit leaves the redo stack
empty, so any subsequent redo() is a no-op signalling "nothing to redo"; the
history state is universally quantified, so this holds in particular after
any number of prior undos. -/
theorem commit_clears_redo {B : Type} (h : History B) (l : String) (b : B) :
    (h.commit l b).redoStack = [] ∧
      (h.commit l b).redo = (h.commit l b, Signal.nothingToRedo) :=
  ⟨rfl, rfl⟩

/-- C4: in every history state where undo() succeeds (undo stack non-empty),
undo() followed by redo() yields a current buffer equal to the buffer
immediately before the undo. -/
theorem undo_then_redo_restores_current {B : Type} (h : History B)
    (hne : h.undoStack ≠ []) :
    h.undo.1.redo.1.current = h.current := by
  obtain ⟨r, rest, hr⟩ := List.exists_cons_of_ne_nil hne
  simp [History.undo, History.redo, hr]

/-- Witness for C4 at a concrete state. -/
theorem undo_then_redo_restores_current_witness :
    (⟨7, [⟨"a", 3⟩], [], 5⟩ : History Nat).undo.1.redo.1.current = 7 :=
  undo_then_redo_restores_current ⟨7, [⟨"a", 3⟩], [], 5⟩ (List.cons_ne_nil _ _)

/-- C6: undo() on an empty undo stack is a no-op that signals "nothing to
undo" and leaves the whole state (in particular the current buffer)
unchanged; symmetrically redo() on an empty redo stack signals "nothing to
redo" and changes nothing. -/
theorem empty_history_noop {B : Type} (h : History B) :
    (h.undoStack = [] → h.undo = (h, Signal.nothingToUndo)) ∧
      (h.redoStack = [] → h.redo = (h, Signal.nothingToRedo)) := by
  constructor
  · intro he
    simp [History.undo, he]
  · intro he
    simp [History.redo, he]

/-- Witness for C6 on a freshly loaded image. -/
theorem empty_history_noop_witness :
    (History.load (5 : Nat) 3).undo = (History.load (5 : Nat) 3, Signal.nothingToUndo) ∧
      (History.load (5 : Nat) 3).redo = (History.load (5 : Nat) 3, Signal.nothingToRedo) :=
  ⟨(empty_history_noop (History.load 5 3)).1 rfl,
   (empty_history_noop (History.load 5 3)).2 rfl⟩

/-- C5: with no image loaded, every effect, adjustment, undo, or redo
invocation signals "no image loaded" and leaves the model state (buffer,
adjustment parameters, history) completely unchanged. -/
theorem no_image_no_mutation {B : Type} (m : Model B) (eff : B → B)
    (l : String) (ranges : AdjName → AdjRange) (n : AdjName) (v : ℚ)
    (hm : m.loaded = none) :
    m.applyEffect eff l = (m, Signal.noImageLoaded) ∧
      m.setAdjustment ranges n v = (m, Signal.noImageLoaded) ∧
      m.undo = (m, Signal.noImageLoaded) ∧
      m.redo = (m, Signal.noImageLoaded) := by
  refine ⟨?_, ?_, ?_, ?_⟩ <;>
    simp [Model.applyEffect, Model.setAdjustment, Model.undo, Model.redo, hm]

/-- Witness for C5 on the empty model. -/
theorem no_image_no_mutation_witness :
    (⟨none, ⟨0, 0, 1⟩⟩ : Model Nat).applyEffect id "Grayscale" =
        (⟨none, ⟨0, 0, 1⟩⟩, Signal.noImageLoaded) ∧
      (⟨none, ⟨0, 0, 1⟩⟩ : Model Nat).setAdjustment
          (fun _ => ⟨0, 1, 0⟩) AdjName.brightness 2 =
        (⟨none, ⟨0, 0, 1⟩⟩, Signal.noImageLoaded) ∧
      (⟨none, ⟨0, 0, 1⟩⟩ : Model Nat).undo = (⟨none, ⟨0, 0, 1⟩⟩, Signal.noImageLoaded) ∧
      (⟨none, ⟨0, 0, 1⟩⟩ : Model Nat).redo = (⟨none, ⟨0, 0, 1⟩⟩, Signal.noImageLoaded) :=
  no_image_no_mutation ⟨none, ⟨0, 0, 1⟩⟩ id "Grayscale" (fun _ => ⟨0, 1, 0⟩)
    AdjName.brightness 2 rfl

/-- C7: the pipeline output over the base buffer is independent of the order
in which the user set two different sliders, because the adjustments are
applied in a fixed declared order with parameters clamped to their ranges. -/
theorem adjustment_order_independent {B : Type}
    (fBright fBlur fContrast : ℚ → B → B) (ranges : AdjName → AdjRange)
    (base : B) (p : AdjParams) (n1 n2 : AdjName) (v1 v2 : ℚ)
    (hne : n1 ≠ n2) :
    renderPipeline fBright fBlur fContrast base
        ((p.set ranges n1 v1).set ranges n2 v2) =
      renderPipeline fBright fBlur fContrast base
        ((p.set ranges n2 v2).set ranges n1 v1) := by
  cases n1 <;> cases n2 <;> first | rfl | exact absurd rfl hne

/-- Witness for C7: setting Brightness to 10 then Blur to 5 renders the same
buffer as setting Blur to 5 then Brightness to 10. -/
theorem adjustment_order_independent_witness :
    renderPipeline (fun v b => b + v) (fun v b => b * (1 + v)) (fun v b => b - v)
        (3 : ℚ)
        ((AdjParams.mk 0 0 1).set (fun _ => ⟨0, 100, 0⟩) AdjName.brightness 10
          |>.set (fun _ => ⟨0, 100, 0⟩) AdjName.blur 5) =
      renderPipeline (fun v b => b + v) (fun v b => b * (1 + v)) (fun v b => b - v)
        (3 : ℚ)
        ((AdjParams.mk 0 0 1).set (fun _ => ⟨0, 100, 0⟩) AdjName.blur 5
          |>.set (fun _ => ⟨0, 100, 0⟩) AdjName.brightness 10) :=
  adjustment_order_independent _ _ _ _ 3 (AdjParams.mk 0 0 1)
    AdjName.brightness AdjName.blur 10 5 (by decide)

/-- C8: after the drag callback runs, the slider's label text is
"name: display" where display is `int(val)` when the name is "Blur" or
"Brightness" and the value formatted to exactly two decimal places for every
other name. -/
theorem drag_label_text (name : String) (val : ℚ) (s : SliderState) :
    (onDragWrapper name val s).labelText =
      name ++ ": " ++
        (if name = "Blur" ∨ name = "Brightness" then toString (pyInt val)
         else pyFormat2 val) :=
  rfl

/-- C10: the reset button's action yields exactly the state of dragging the
slider to the default value and releasing: same slider value, same label
(written through the same drag wrapper, so the drag callback runs once with
the default value), and the release callback runs exactly once - except that
it receives `none` where the drag path's release receives the event. -/
theorem reset_equals_drag_release (name : String) (d : ℚ) (s : SliderState)
    (e : Nat) :
    resetAction name d s = releaseWith none (dragTo name d s) ∧
      (resetAction name d s).value = d ∧
      (resetAction name d s).labelText = dragLabelText name d ∧
      (resetAction name d s).dragCalls =
        (releaseWith (some e) (dragTo name d s)).dragCalls ∧
      (resetAction name d s).relCalls = s.relCalls ++ [none] ∧
      (releaseWith (some e) (dragTo name d s)).relCalls = s.relCalls ++ [some e] :=
  ⟨rfl, rfl, rfl, rfl, rfl, rfl⟩
/-- When the icon file is missing, processIcon builds its result from the
white 20x20 placeholder square (already RGBA, so no convert step). -/
theorem processIcon_missing (fsExists : String → Bool) (modeOf : String → String)
    (iconDir name : String)
    (hfalse : fsExists (iconFilePath iconDir name) = false) :
    processIcon fsExists modeOf iconDir name =
      PILImg.mergeWhiteAlpha (placeholderIcon.resize 18 18) := by
  simp [processIcon, hfalse, placeholderIcon, PILImg.modeIn]

/-- C9: load_menu_icons is total over missing icon files: every name of
iconNames gets an entry in menu_icons, and when the icon file does not exist
on disk the entry is built from the 20x20 white placeholder square, so a
missing file never leaves a key absent. -/
theorem menu_icons_total (fsExists : String → Bool) (modeOf : String → String)
    (iconDir name : String) (hmem : name ∈ iconNames) :
    ((loadMenuIcons fsExists modeOf iconDir).lookup name).isSome ∧
      (fsExists (iconFilePath iconDir name) = false →
        (loadMenuIcons fsExists modeOf iconDir).lookup name =
          some (PILImg.mergeWhiteAlpha (placeholderIcon.resize 18 18))) := by
  fin_cases hmem <;>
    exact ⟨by simp [loadMenuIcons, iconNames, List.lookup],
      fun hf => by
        simp [loadMenuIcons, iconNames, List.lookup,
          processIcon_missing _ _ _ _ hf]⟩

/-- Witness for C9 with an empty filesystem. -/
theorem menu_icons_total_witness :
    ((loadMenuIcons (fun _ => false) (fun _ => "RGBA") "icons").lookup "undo").isSome ∧
      ((fun _ => false : String → Bool) (iconFilePath "icons" "undo") = false →
        (loadMenuIcons (fun _ => false) (fun _ => "RGBA") "icons").lookup "undo" =
          some (PILImg.mergeWhiteAlpha (placeholderIcon.resize 18 18))) :=
  menu_icons_total (fun _ => false) (fun _ => "RGBA") "icons" "undo" (by decide)
/-- Every operation preserves the configured maximum depth. -/
theorem History.applyOp_maxDepth {B : Type} (h : History B) (op : History.Op B) :
    (h.applyOp op).maxDepth = h.maxDepth := by
  cases op with
  | commit l b => rfl
  | undo =>
      cases hu : h.undoStack <;> simp [History.applyOp, History.undo, hu]
  | redo =>
      cases hr : h.redoStack <;> simp [History.applyOp, History.redo, hr]

/-- Every operation preserves the bound: the combined depths of the undo and
redo stacks never exceed the configured maximum. -/
theorem History.applyOp_depth {B : Type} (h : History B) (op : History.Op B)
    (hinv : h.undoStack.length + h.redoStack.length ≤ h.maxDepth) :
    (h.applyOp op).undoStack.length + (h.applyOp op).redoStack.length ≤
      (h.applyOp op).maxDepth := by
  rw [History.applyOp_maxDepth]
  cases op with
  | commit l b =>
      by_cases hc : h.maxDepth < h.undoStack.length + 1 <;>
        simp [History.applyOp, History.commit, hc] <;> omega
  | undo =>
      cases hu : h.undoStack <;> simp [History.applyOp, History.undo, hu] <;>
        simp [hu] at hinv <;> omega
  | redo =>
      cases hr : h.redoStack <;> simp [History.applyOp, History.redo, hr] <;>
        simp [hr] at hinv <;> omega

/-- The depth bound is preserved along any operation sequence, together with
the configured maximum. -/
theorem History.applyAll_depth {B : Type} (ops : List (History.Op B))
    (h : History B)
    (hinv : h.undoStack.length + h.redoStack.length ≤ h.maxDepth) :
    (History.applyAll ops h).undoStack.length +
        (History.applyAll ops h).redoStack.length ≤
      (History.applyAll ops h).maxDepth ∧
    (History.applyAll ops h).maxDepth = h.maxDepth := by
  induction ops generalizing h with
  | nil => exact ⟨hinv, rfl⟩
  | cons op rest ih =>
      have h1 := History.applyOp_depth h op hinv
      have h2 := History.applyOp_maxDepth h op
      have h3 := ih (h.applyOp op) h1
      simp only [History.applyAll, List.foldl_cons] at h3 ⊢
      exact ⟨h3.1, by rw [h3.2, h2]⟩

/-- C3: along every commit/undo/redo sequence from a freshly loaded image the
undo stack's depth never exceeds the configured maximum; and whenever a
commit would exceed the maximum (the undo stack is already at the maximum),
the pushed stack loses its oldest (bottom) entry while the commit still
succeeds, setting the current buffer to the committed one. -/
theorem history_depth_bounded {B : Type} (ops : List (History.Op B)) (b0 : B)
    (md : Nat) (h : History B) (l : String) (b : B)
    (hfull : h.maxDepth ≤ h.undoStack.length) :
    (History.applyAll ops (History.load b0 md)).undoStack.length ≤ md ∧
      (h.commit l b).undoStack = (⟨l, h.current⟩ :: h.undoStack).dropLast ∧
      (h.commit l b).current = b := by
  refine ⟨?_, ?_, rfl⟩
  · have hd := History.applyAll_depth ops (History.load b0 md) (by simp [History.load])
    simp only [History.load] at hd ⊢
    omega
  · have hc : h.maxDepth < (⟨l, h.current⟩ :: h.undoStack : List (EditRecord B)).length := by
      simp
      omega
    show (if h.maxDepth < (⟨l, h.current⟩ :: h.undoStack : List (EditRecord B)).length
        then (⟨l, h.current⟩ :: h.undoStack : List (EditRecord B)).dropLast
        else ⟨l, h.current⟩ :: h.undoStack) =
      (⟨l, h.current⟩ :: h.undoStack : List (EditRecord B)).dropLast
    rw [if_pos hc]

/-- Witness for C3: a sequence at maximum depth one, and a full history whose
commit evicts the bottom entry. -/
theorem history_depth_bounded_witness :
    (History.applyAll
        [History.Op.commit "a" 1, History.Op.undo, History.Op.redo,
          History.Op.commit "b" 2]
        (History.load (0 : Nat) 1)).undoStack.length ≤ 1 ∧
      ((⟨9, [⟨"x", 3⟩], [], 1⟩ : History Nat).commit "c" 4).undoStack =
        ((⟨"c", 9⟩ : EditRecord Nat) :: [⟨"x", 3⟩]).dropLast ∧
      ((⟨9, [⟨"x", 3⟩], [], 1⟩ : History Nat).commit "c" 4).current = 4 :=
  history_depth_bounded _ 0 1 ⟨9, [⟨"x", 3⟩], [], 1⟩ "c" 4 (by decide)
/-- Applying one more undo after `n` undos is the same as undoing once after
the first `n`. -/
theorem History.undoN_succ {B : Type} (n : Nat) (h : History B) :
    History.undoN (n + 1) h = (History.undoN n h).undo.1 := by
  induction n generalizing h with
  | zero => rfl
  | succ m ih =>
      show History.undoN (m + 1) h.undo.1 = _
      rw [ih h.undo.1]
      rfl

/-- As long as the commits fit under the configured maximum depth, a run of
commits followed by as many undos restores both the current buffer and the
undo stack; only the redo stack may differ. -/
theorem History.commitAll_undoN {B : Type} (cs : List (String × B))
    (h : History B) (hlen : h.undoStack.length + cs.length ≤ h.maxDepth) :
    ∃ R, History.undoN cs.length (History.commitAll cs h) =
      { current := h.current, undoStack := h.undoStack, redoStack := R,
        maxDepth := h.maxDepth } := by
  induction cs generalizing h with
  | nil => exact ⟨h.redoStack, rfl⟩
  | cons c rest ih =>
      have hno : ¬ h.maxDepth < h.undoStack.length + 1 := by
        simp at hlen
        omega
      have hcommit : h.commit c.1 c.2 =
          { current := c.2, undoStack := ⟨c.1, h.current⟩ :: h.undoStack,
            redoStack := [], maxDepth := h.maxDepth } := by
        simp [History.commit, hno]
      have hlen2 : (h.commit c.1 c.2).undoStack.length + rest.length ≤
          (h.commit c.1 c.2).maxDepth := by
        rw [hcommit]
        simp at hlen ⊢
        omega
      obtain ⟨R, hR⟩ := ih (h.commit c.1 c.2) hlen2
      refine ⟨⟨c.1, c.2⟩ :: R, ?_⟩
      show History.undoN (rest.length + 1)
          (History.commitAll rest (h.commit c.1 c.2)) = _
      rw [History.undoN_succ, hR, hcommit]
      rfl

/-- C1 counterexample: with the configured maximum depth 1, two commits
followed by two undos do not restore the originally loaded buffer, because
the first commit's record was evicted by the second commit. -/
theorem roundtrip_counterexample :
    ¬ (History.undoN 2
        (History.commitAll [("a", 7), ("b", 9)]
          (History.load (5 : Nat) 1))).current = 5 := by
  decide

/-- C1 (amended): for every loaded image, a sequence of N commits followed by
N undos restores the originally loaded buffer, provided N does not exceed the
configured maximum history depth. -/
theorem commits_then_undos_roundtrip {B : Type} (b0 : B) (md : Nat)
    (cs : List (String × B)) (hlen : cs.length ≤ md) :
    (History.undoN cs.length
        (History.commitAll cs (History.load b0 md))).current = b0 := by
  obtain ⟨R, hR⟩ := History.commitAll_undoN cs (History.load b0 md)
    (by simpa [History.load] using hlen)
  rw [hR]
  rfl

/-- Witness for the amended C1: two commits and two undos under maximum
depth two restore the loaded buffer. -/
theorem commits_then_undos_roundtrip_witness :
    (History.undoN 2
        (History.commitAll [("a", 7), ("b", 9)]
          (History.load (5 : Nat) 2))).current = 5 :=
  commits_then_undos_roundtrip 5 2 [("a", 7), ("b", 9)] (by decide)
